import Mathlib

/-!
Verification of the repository-location addressing scheme and repository
lifecycle operations of `columbia/git.py`, against the design document.

Paths are modelled as lists of `joinpath` segments (the first segment is the
raw working-directory string).  The filesystem is modelled as the list of
existing directories.  Python strings that are parsed character by character
are modelled as `List Char`; strings that are only compared are `String`.
External subprocess behaviour (exit code, stdout, stderr) is supplied as an
explicit parameter, mirroring `subprocess.check_output`.
-/

/-- Model of `pathlib.Path`: the list of `joinpath` components. -/
abbrev FsPath := List String

/-- Model of `pathlib`'s `/` and `joinpath` with a single component. -/
def FsPath.child (p : FsPath) (seg : String) : FsPath := p ++ [seg]

/-- Model of `pathlib.Path.parent` (drop the last component). -/
def FsPath.parent (p : FsPath) : FsPath := p.dropLast

/-- Model of `str(path)`: the POSIX textual form of the path. -/
def FsPath.toStr (p : FsPath) : String := String.intercalate "/" p

/-! UTF-8 encoding of a string, byte values as `Nat` (models Python's
`str.encode("utf-8")`). -/

/-- UTF-8 byte sequence of one code point. -/
def utf8EncodeChar (c : Char) : List Nat :=
  let n := c.toNat
  if n < 0x80 then [n]
  else if n < 0x800 then
    [0xC0 ||| (n >>> 6), 0x80 ||| (n &&& 0x3F)]
  else if n < 0x10000 then
    [0xE0 ||| (n >>> 12), 0x80 ||| ((n >>> 6) &&& 0x3F), 0x80 ||| (n &&& 0x3F)]
  else
    [0xF0 ||| (n >>> 18), 0x80 ||| ((n >>> 12) &&& 0x3F),
     0x80 ||| ((n >>> 6) &&& 0x3F), 0x80 ||| (n &&& 0x3F)]

/-- UTF-8 bytes of a string. -/
def utf8Bytes (s : String) : List Nat := (s.toList.map utf8EncodeChar).flatten

/-! MD5 (models `hashlib.md5(...).hexdigest()`). -/

/-- MD5 per-round constants (binary integer parts of the sines of integers). -/
def md5K : List Nat :=
  [0xd76aa478, 0xe8c7b756, 0x242070db, 0xc1bdceee,
   0xf57c0faf, 0x4787c62a, 0xa8304613, 0xfd469501,
   0x698098d8, 0x8b44f7af, 0xffff5bb1, 0x895cd7be,
   0x6b901122, 0xfd987193, 0xa679438e, 0x49b40821,
   0xf61e2562, 0xc040b340, 0x265e5a51, 0xe9b6c7aa,
   0xd62f105d, 0x02441453, 0xd8a1e681, 0xe7d3fbc8,
   0x21e1cde6, 0xc33707d6, 0xf4d50d87, 0x455a14ed,
   0xa9e3e905, 0xfcefa3f8, 0x676f02d9, 0x8d2a4c8a,
   0xfffa3942, 0x8771f681, 0x6d9d6122, 0xfde5380c,
   0xa4beea44, 0x4bdecfa9, 0xf6bb4b60, 0xbebfbc70,
   0x289b7ec6, 0xeaa127fa, 0xd4ef3085, 0x04881d05,
   0xd9d4d039, 0xe6db99e5, 0x1fa27cf8, 0xc4ac5665,
   0xf4292244, 0x432aff97, 0xab9423a7, 0xfc93a039,
   0x655b59c3, 0x8f0ccc92, 0xffeff47d, 0x85845dd1,
   0x6fa87e4f, 0xfe2ce6e0, 0xa3014314, 0x4e0811a1,
   0xf7537e82, 0xbd3af235, 0x2ad7d2bb, 0xeb86d391]

/-- MD5 per-round left-rotation amounts. -/
def md5S : List Nat :=
  [7, 12, 17, 22, 7, 12, 17, 22, 7, 12, 17, 22, 7, 12, 17, 22,
   5, 9, 14, 20, 5, 9, 14, 20, 5, 9, 14, 20, 5, 9, 14, 20,
   4, 11, 16, 23, 4, 11, 16, 23, 4, 11, 16, 23, 4, 11, 16, 23,
   6, 10, 15, 21, 6, 10, 15, 21, 6, 10, 15, 21, 6, 10, 15, 21]

/-- Left rotation of a 32-bit word. -/
def rotl32 (x n : Nat) : Nat := ((x <<< n) ||| (x >>> (32 - n))) % 4294967296

/-- Little-endian 32-bit word number `g` of a 64-byte block. -/
def md5WordAt (block : List Nat) (g : Nat) : Nat :=
  block.getD (4 * g) 0 + 256 * block.getD (4 * g + 1) 0 +
    65536 * block.getD (4 * g + 2) 0 + 16777216 * block.getD (4 * g + 3) 0

/-- One MD5 round: state (A, B, C, D), round index `i`, message words `M`. -/
def md5Round (M : Nat → Nat) (st : Nat × Nat × Nat × Nat) (i : Nat) :
    Nat × Nat × Nat × Nat :=
  let (A, B, C, D) := st
  let Fg : Nat × Nat :=
    if i < 16 then ((B &&& C) ||| ((B ^^^ 0xffffffff) &&& D), i)
    else if i < 32 then ((D &&& B) ||| ((D ^^^ 0xffffffff) &&& C), (5 * i + 1) % 16)
    else if i < 48 then (B ^^^ C ^^^ D, (3 * i + 5) % 16)
    else (C ^^^ (B ||| (D ^^^ 0xffffffff)), (7 * i) % 16)
  let F := (Fg.1 + A + md5K.getD i 0 + M Fg.2) % 4294967296
  (D, (B + rotl32 F (md5S.getD i 0)) % 4294967296, B, C)

/-- Process one 64-byte block into the running MD5 state. -/
def md5ProcessBlock (st : Nat × Nat × Nat × Nat) (block : List Nat) :
    Nat × Nat × Nat × Nat :=
  let r := (List.range 64).foldl (md5Round (md5WordAt block)) st
  ((st.1 + r.1) % 4294967296, (st.2.1 + r.2.1) % 4294967296,
   (st.2.2.1 + r.2.2.1) % 4294967296, (st.2.2.2 + r.2.2.2) % 4294967296)

/-- MD5 padding: 0x80, zeros to 56 mod 64, then the bit length little-endian. -/
def md5Pad (msg : List Nat) : List Nat :=
  let len := msg.length
  let zeros := (56 + 64 - ((len + 1) % 64)) % 64
  msg ++ [0x80] ++ List.replicate zeros 0 ++
    (List.range 8).map (fun i => (len * 8) % 18446744073709551616 / 256 ^ i % 256)

/-- Split a byte list into 64-byte chunks; structural recursion on a fuel
bound so that the definition reduces inside the kernel. -/
def toChunksFuel : Nat → List Nat → List (List Nat)
  | 0, _ => []
  | fuel + 1, l => if l = [] then [] else l.take 64 :: toChunksFuel fuel (l.drop 64)

/-- Split a byte list into 64-byte chunks. -/
def toChunks (l : List Nat) : List (List Nat) := toChunksFuel (l.length + 1) l

/-- MD5 digest of a byte list, as the four 32-bit state words. -/
def md5Bytes (msg : List Nat) : Nat × Nat × Nat × Nat :=
  (toChunks (md5Pad msg)).foldl md5ProcessBlock
    (0x67452301, 0xefcdab89, 0x98badcfe, 0x10325476)

/-- Lower-case hex digit. -/
def hexDigit (n : Nat) : Char :=
  if n < 10 then Char.ofNat (48 + n) else Char.ofNat (87 + n)

/-- Two hex digits of a byte. -/
def byteHex (b : Nat) : List Char := [hexDigit (b / 16), hexDigit (b % 16)]

/-- Hex form of a 32-bit word, serialized little-endian byte by byte. -/
def word32LEHex (w : Nat) : List Char :=
  byteHex (w % 256) ++ byteHex (w / 256 % 256) ++
    byteHex (w / 65536 % 256) ++ byteHex (w / 16777216 % 256)

/-- Model of `hashlib.md5(s.encode("utf-8")).hexdigest()`. -/
def md5hex (s : String) : String :=
  let d := md5Bytes (utf8Bytes s)
  ⟨word32LEHex d.1 ++ word32LEHex d.2.1 ++ word32LEHex d.2.2.1 ++
    word32LEHex d.2.2.2⟩

/-! Filesystem model: the list of existing directories. -/

/-- Filesystem state: the list of directories that exist. -/
abbrev Fs := List FsPath

/-- Existence check (models `Path.exists()`). -/
def Fs.existsDir (fs : Fs) (p : FsPath) : Bool := decide (p ∈ fs)

/-- Nonempty prefixes of a path, shortest first; the directories that
`mkdir(parents=True)` guarantees to exist afterwards. -/
def FsPath.ancestorsAndSelf (p : FsPath) : List FsPath :=
  (List.range p.length).map (fun i => p.take (i + 1))

/-- Model of `Path.mkdir(parents=True, exist_ok=True)`: the path and every
missing ancestor directory come into existence; existing ones are kept. -/
def Fs.mkdirParents (fs : Fs) (p : FsPath) : Fs :=
  fs ++ (FsPath.ancestorsAndSelf p).filter (fun q => ¬ q ∈ fs)

/-- Model of the `OSError` hierarchy raised by the filesystem calls used here
(`FileNotFoundError` is a subclass of `OSError`). -/
inductive OSErr where
  | fileNotFound (p : FsPath)
  | directoryNotEmpty (p : FsPath)
deriving DecidableEq

/-- Model of `shutil.rmtree(p)`: removes `p` and everything below it, or
raises if `p` does not exist. -/
def Fs.rmtree (fs : Fs) (p : FsPath) : Fs × Option OSErr :=
  if p ∈ fs then (fs.filter (fun q => ¬ p <+: q), none)
  else (fs, some (OSErr.fileNotFound p))

/-- Model of `Path.rmdir()`: removes `p` if it exists and is empty, raises an
`OSError` otherwise. -/
def Fs.rmdir (fs : Fs) (p : FsPath) : Fs × Option OSErr :=
  if p ∈ fs then
    if ∃ q ∈ fs, p <+: q ∧ q ≠ p then (fs, some (OSErr.directoryNotEmpty p))
    else (fs.filter (fun q => q ≠ p), none)
  else (fs, some (OSErr.fileNotFound p))

/-! Location resolver (`RepositoryLocation` and the path builders). -/

/-- Returns a unique repo path in the given working directory based on a two
level hash of the repo URL (`repo_url_hash_path_builder`). -/
def repo_url_hash_path_builder (working_directory url : String) : FsPath :=
  let url_hash := md5hex url
  let parent_directory := url_hash.take 2
  let repository_directory := url_hash.drop 2
  FsPath.child (FsPath.child [working_directory] parent_directory)
    repository_directory

/-- Returns a relative path for a worktree based on the hash of the branch
name (`branch_hash_worktree_path_builder`). -/
def branch_hash_worktree_path_builder (branch : String) : String := md5hex branch

/-- Model of `RepositoryLocation` after `__init__`.  The `repository_url`
(urlparse) field is omitted: no claim reads it.  The `path_builder_func`
parameter is taken at its default, `repo_url_hash_path_builder`, which is the
configuration every claim is about. -/
structure RepositoryLocation where
  working_directory : String
  url : String
  root_path : FsPath
  path : FsPath
deriving DecidableEq

/-- Model of `RepositoryLocation.__init__(working_directory, repository_url)`
with the default path builder. -/
def RepositoryLocation.init (working_directory repository_url : String) :
    RepositoryLocation :=
  let url_hash := md5hex repository_url
  let root_path := repo_url_hash_path_builder working_directory repository_url
  ⟨working_directory, repository_url, root_path, FsPath.child root_path url_hash⟩

/-- Model of the `RepositoryLocation.exists` property. -/
def RepositoryLocation.existsOnDisk (loc : RepositoryLocation) (fs : Fs) :
    Bool :=
  Fs.existsDir fs loc.path

/-- Model of `RepositoryLocation.create`: returns the Python return value and
the filesystem afterwards. -/
def RepositoryLocation.create (loc : RepositoryLocation) (fs : Fs) :
    Bool × Fs :=
  if loc.existsOnDisk fs then (false, fs)
  else (true, Fs.mkdirParents fs loc.path)

/-- Model of `RepositoryLocation.remove`: `shutil.rmtree(root_path)`, then
`path.parent.rmdir()` with any `OSError` from the `rmdir` swallowed.  Returns
the filesystem afterwards and the exception propagated, if any. -/
def RepositoryLocation.remove (loc : RepositoryLocation) (fs : Fs) :
    Fs × Option OSErr :=
  let r := Fs.rmtree fs loc.root_path
  match r.2 with
  | some e => (r.1, some e)
  | none =>
    match Fs.rmdir r.1 (FsPath.parent loc.path) with
    | (fs2, none) => (fs2, none)
    | (_, some _) => (r.1, none)

/-- Model of `RepositoryLocation.fq_path`. -/
def RepositoryLocation.fq_path (loc : RepositoryLocation)
    (relative_path : String) : FsPath :=
  FsPath.child loc.path relative_path

/-- Model of `RepositoryLocation.path_exists`. -/
def RepositoryLocation.path_exists (loc : RepositoryLocation) (fs : Fs)
    (relative_path : String) : Bool :=
  Fs.existsDir fs (loc.fq_path relative_path)

/-- Model of `RepositoryLocation.worktree_path`. -/
def RepositoryLocation.worktree_path (loc : RepositoryLocation)
    (branch_name : String) : FsPath :=
  let wt_path := branch_hash_worktree_path_builder branch_name
  FsPath.child loc.root_path wt_path

/-! Subprocess model.  `Repository._git` calls `subprocess.check_output` with
`stdout` captured but `stderr` NOT redirected, so on a nonzero exit the raised
`CalledProcessError` has `output` set to the captured stdout and `stderr` set
to `None`.  The behaviour of the external process (its stdout, the text it
wrote to the uncaptured stderr stream, and its exit code) is a parameter. -/

/-- Observable behaviour of one external `git` process. -/
structure ProcResult where
  stdout : String
  stderr : String
  exitcode : Int
deriving DecidableEq

/-- Model of `subprocess.CalledProcessError`. -/
structure CalledProcessError where
  returncode : Int
  cmd : List String
  output : Option String
  stderr : Option String
deriving DecidableEq

/-- Model of `subprocess.check_output(args=args, cwd=cwd,
universal_newlines=True)` applied to a process that behaves like `pr`: the
captured stdout on success, a `CalledProcessError` whose `stderr` field is
`None` (stderr was not redirected) on a nonzero exit. -/
def check_output (args : List String) (pr : ProcResult) :
    Except CalledProcessError String :=
  if pr.exitcode = 0 then Except.ok pr.stdout
  else Except.error ⟨pr.exitcode, args, some pr.stdout, none⟩

/-- Model of the Python exceptions that can escape the operations below. -/
inductive PyExc where
  | calledProcessError (e : CalledProcessError)
  | repositoryError (message : Option String)
  | osError (e : OSErr)
  | indexError
deriving DecidableEq

/-- Model of `PyExc` membership in the domain-level `RepositoryError` class. -/
def PyExc.isRepositoryError : PyExc → Bool
  | PyExc.repositoryError _ => true
  | _ => false

/-- Model of the `Repository` instance configuration (the mutable `created`
flag is threaded explicitly through `clone`). -/
structure Repository where
  location : RepositoryLocation
  binary : String
  bare : Bool
deriving DecidableEq

/-- Argument vector of `Repository._git(command, arguments)`:
`[self.binary, command] + arguments`. -/
def Repository.gitArgs (repo : Repository) (command : String)
    (arguments : List String) : List String :=
  [repo.binary, command] ++ arguments

/-- Model of the `Repository.ready` property.  `fs` is the filesystem and
`revParse` the behaviour of the `rev-parse --git-dir` probe process (consulted
only in the bare branch). -/
def Repository.ready (repo : Repository) (fs : Fs) (revParse : ProcResult) :
    Bool :=
  if !(repo.location.existsOnDisk fs) then false
  else if repo.bare then
    match check_output (repo.gitArgs "rev-parse" ["--git-dir"]) revParse with
    | Except.error _ => false
    | Except.ok _ => true
  else
    repo.location.path_exists fs ".git"

/-- Result of `Repository.clone`: the filesystem afterwards, the `created`
flag afterwards, and the exception raised, if any. -/
structure CloneOutcome where
  fs : Fs
  created : Bool
  raised : Option PyExc
deriving DecidableEq

/-- Model of `Repository.clone(bare)`: `_ready_target_location` (which sets
`created := location.create()`), then the `git clone` subprocess (behaviour
`pr`); on `CalledProcessError`, rollback via `location.remove()` if and only
if `created`, then raise `RepositoryError(exc.stderr)`. -/
def Repository.clone (repo : Repository) (fs : Fs) (bare : Bool)
    (pr : ProcResult) : CloneOutcome :=
  let c := repo.location.create fs
  let args0 := [repo.location.url, FsPath.toStr repo.location.path]
  let args := if bare then "--bare" :: args0 else args0
  match check_output (repo.gitArgs "clone" args) pr with
  | Except.ok _ => ⟨c.2, c.1, none⟩
  | Except.error exc =>
    let message := exc.stderr
    if c.1 then
      match repo.location.remove c.2 with
      | (fs2, some e) => ⟨fs2, c.1, some (PyExc.osError e)⟩
      | (fs2, none) => ⟨fs2, c.1, some (PyExc.repositoryError message)⟩
    else ⟨c.2, c.1, some (PyExc.repositoryError message)⟩

/-- Model of `Repository.update_to(reference)` over an abstract repository
state `σ`: `run` gives the external tool's state transition and observable
behaviour for a given argument vector.  Checkout runs first; pull runs only
if checkout exited zero; a `CalledProcessError` escapes as-is. -/
def Repository.update_to {σ : Type} (repo : Repository) (reference : String)
    (run : List String → σ → σ × ProcResult) (st : σ) : σ × Option PyExc :=
  let checkoutArgs := repo.gitArgs "checkout" [reference]
  let r1 := run checkoutArgs st
  match check_output checkoutArgs r1.2 with
  | Except.error e => (r1.1, some (PyExc.calledProcessError e))
  | Except.ok _ =>
    let pullArgs := repo.gitArgs "pull" []
    let r2 := run pullArgs r1.1
    match check_output pullArgs r2.2 with
    | Except.error e => (r2.1, some (PyExc.calledProcessError e))
    | Except.ok _ => (r2.1, none)

/-! Reference-enumeration parsing.  The stdout handed back by `_git` is
modelled as `List Char` here, because these operations inspect it character
by character. -/

/-- Python string, character-level view. -/
abbrev PyStr := List Char

/-- Characters stripped by Python's `str.strip()` (the ASCII whitespace
set: space, tab, newline, carriage return, vertical tab, form feed). -/
def pyWs (c : Char) : Bool :=
  c = ' ' || c = '\t' || c = '\n' || c = '\r' || c = '\x0b' || c = '\x0c'

/-- Model of Python's `str.strip()`. -/
def pyStrip (s : PyStr) : PyStr :=
  ((s.dropWhile pyWs).reverse.dropWhile pyWs).reverse

/-- Worker for `pySplit`: scans left to right for the (nonempty) separator
`s :: ss`, accumulating the current chunk reversed in `acc`. -/
def pySplitGo (s : Char) (ss : List Char) (l : List Char) (acc : List Char) :
    List (List Char) :=
  match l with
  | [] => [acc.reverse]
  | c :: rest =>
    if (s :: ss).isPrefixOf (c :: rest) then
      acc.reverse :: pySplitGo s ss ((c :: rest).drop (s :: ss).length) []
    else
      pySplitGo s ss rest (c :: acc)
termination_by l.length
decreasing_by
  · simp only [List.drop_succ_cons, List.length_drop, List.length_cons]
    omega
  · simp only [List.length_cons]
    omega

/-- Model of Python's `str.split(sep)` for a nonempty separator (Python
raises `ValueError` on an empty separator; the separators used here are the
constant ref markers and a newline, all nonempty). -/
def pySplit (sep l : PyStr) : List PyStr :=
  match sep with
  | [] => [l]
  | s :: ss => pySplitGo s ss l []

/-- Model of `Repository._split_branch_name`:
`reference.split("refs/heads/")[1]`, where a missing index `1` is Python's
`IndexError`, modelled as `none`. -/
def split_branch_name (reference : PyStr) : Option PyStr :=
  (pySplit ("refs/heads/".toList) reference).get? 1

/-- Model of `Repository.branches()` as a function of the stdout of
`git ls-remote --heads`: empty stdout short-circuits to `[]`; otherwise the
stripped output is split on newlines and each line is reduced by
`_split_branch_name`, an `IndexError` escaping as the failure. -/
def Repository.branchesOut (result : PyStr) : Except PyExc (List PyStr) :=
  if result = [] then Except.ok []
  else
    match (pySplit ['\n'] (pyStrip result)).mapM split_branch_name with
    | some names => Except.ok names
    | none => Except.error PyExc.indexError

/-- Model of `Repository.tags()` as a function of the stdout of
`git ls-remote --tags`: symmetric to `branchesOut` with the
`refs/tags/` marker split inline. -/
def Repository.tagsOut (result : PyStr) : Except PyExc (List PyStr) :=
  if result = [] then Except.ok []
  else
    match (pySplit ['\n'] (pyStrip result)).mapM
        (fun t => (pySplit ("refs/tags/".toList) t).get? 1) with
    | some names => Except.ok names
    | none => Except.error PyExc.indexError

/-- Model of `os.path.join(destination, "")` under POSIX path rules: a
trailing separator is appended unless the string is empty or already ends
with the separator. -/
def os_path_join_empty (destination : PyStr) : PyStr :=
  if destination = [] ∨ destination.getLast? = some '/' then destination
  else destination ++ ['/']

/-- Argument vector of the subprocess invoked by
`Repository.export(destination)`: `checkout-index -a -f
--prefix=<os.path.join(destination, "")>`. -/
def Repository.export_argv (repo : Repository) (destination : PyStr) :
    List PyStr :=
  let d := os_path_join_empty destination
  [repo.binary.toList, "checkout-index".toList, "-a".toList, "-f".toList,
   "--prefix=".toList ++ d]

/-! Helper lemmas about the filesystem model. -/

/-- A nonempty path is among its own `ancestorsAndSelf`. -/
theorem mem_ancestorsAndSelf_self (p : FsPath) (h : p ≠ []) :
    p ∈ FsPath.ancestorsAndSelf p := by
  unfold FsPath.ancestorsAndSelf
  refine List.mem_map.mpr ⟨p.length - 1, ?_, ?_⟩
  · refine List.mem_range.mpr ?_
    have : 0 < p.length := List.length_pos.mpr h
    omega
  · have hl : p.length - 1 + 1 = p.length := by
      have : 0 < p.length := List.length_pos.mpr h
      omega
    rw [hl, List.take_length]

/-- Every ancestor of the created path exists after `mkdirParents`. -/
theorem mem_mkdirParents (fs : Fs) (p q : FsPath)
    (hq : q ∈ FsPath.ancestorsAndSelf p) : q ∈ Fs.mkdirParents fs p := by
  unfold Fs.mkdirParents
  by_cases h : q ∈ fs
  · exact List.mem_append.mpr (Or.inl h)
  · refine List.mem_append.mpr (Or.inr (List.mem_filter.mpr ⟨hq, ?_⟩))
    simpa using h

/-- C2: location resolution is pure and deterministic: `rootPath` is
`workingDirectory / md5(url)[0:2] / md5(url)[2:]`, `path` is
`rootPath / md5(url)`, every worktree path is `rootPath / md5(branchName)`,
and resolving the same inputs twice yields identical locations. -/
theorem location_resolution_pure (workingDirectory url : String) :
    ((RepositoryLocation.init workingDirectory url).root_path =
      [workingDirectory, (md5hex url).take 2, (md5hex url).drop 2]) ∧
    ((RepositoryLocation.init workingDirectory url).path =
      [workingDirectory, (md5hex url).take 2, (md5hex url).drop 2,
        md5hex url]) ∧
    (∀ branchName : String,
      (RepositoryLocation.init workingDirectory url).worktree_path branchName =
        [workingDirectory, (md5hex url).take 2, (md5hex url).drop 2,
          md5hex branchName]) ∧
    (RepositoryLocation.init workingDirectory url =
      RepositoryLocation.init workingDirectory url) :=
  ⟨rfl, rfl, fun _ => rfl, rfl⟩

/-- C3: readiness reflects VCS presence: never ready at a nonexistent
location; non-bare readiness is existence plus the `.git` subdirectory; bare
readiness is existence plus a zero exit of the `rev-parse --git-dir` probe. -/
theorem ready_reflects_vcs_presence (repo : Repository) (fs : Fs)
    (revParse : ProcResult) :
    (repo.location.path ∉ fs → repo.ready fs revParse = false) ∧
    (repo.bare = false →
      (repo.ready fs revParse = true ↔
        repo.location.path ∈ fs ∧
          FsPath.child repo.location.path ".git" ∈ fs)) ∧
    (repo.bare = true →
      (repo.ready fs revParse = true ↔
        repo.location.path ∈ fs ∧ revParse.exitcode = 0)) := by
  refine ⟨?_, ?_, ?_⟩
  · intro h
    simp [Repository.ready, RepositoryLocation.existsOnDisk, Fs.existsDir, h]
  · intro hb
    by_cases h : repo.location.path ∈ fs
    · simp [Repository.ready, RepositoryLocation.existsOnDisk, Fs.existsDir,
        h, hb, RepositoryLocation.path_exists, RepositoryLocation.fq_path]
    · simp [Repository.ready, RepositoryLocation.existsOnDisk, Fs.existsDir,
        h]
  · intro hb
    by_cases h : repo.location.path ∈ fs
    · by_cases he : revParse.exitcode = 0 <;>
        simp [Repository.ready, RepositoryLocation.existsOnDisk, Fs.existsDir,
          h, hb, check_output, Repository.gitArgs, he]
    · simp [Repository.ready, RepositoryLocation.existsOnDisk, Fs.existsDir,
        h]

/-- Witness for C3 at concrete inputs: a repository at a nonexistent location
is not ready; a non-bare repository whose location and `.git` subdirectory
exist is ready. -/
theorem ready_reflects_vcs_presence_witness :
    ((⟨RepositoryLocation.init "w" "u", "/usr/bin/git", false⟩ :
        Repository).ready [] ⟨"", "", 0⟩ = false) ∧
    ((⟨⟨"w", "u", ["w"], ["w", "r"]⟩, "/usr/bin/git", false⟩ :
        Repository).ready [["w", "r"], ["w", "r", ".git"]] ⟨"", "", 0⟩ =
      true) := by
  constructor
  · exact (ready_reflects_vcs_presence _ _ _).1 (List.not_mem_nil _)
  · exact ((ready_reflects_vcs_presence _ _ _).2.1 rfl).mpr
      ⟨by decide, by decide⟩

/-- C8: idempotent create: on an existing location `create` returns `False`
and leaves the filesystem untouched; on an absent location it returns `True`
and creates the directory together with every missing parent. -/
theorem create_idempotent (workingDirectory url : String) (fs : Fs) :
    ((RepositoryLocation.init workingDirectory url).path ∈ fs →
      (RepositoryLocation.init workingDirectory url).create fs = (false, fs)) ∧
    ((RepositoryLocation.init workingDirectory url).path ∉ fs →
      ((RepositoryLocation.init workingDirectory url).create fs).1 = true ∧
      (RepositoryLocation.init workingDirectory url).path ∈
        ((RepositoryLocation.init workingDirectory url).create fs).2 ∧
      ∀ q ∈ FsPath.ancestorsAndSelf
          (RepositoryLocation.init workingDirectory url).path,
        q ∈ ((RepositoryLocation.init workingDirectory url).create fs).2) := by
  constructor
  · intro h
    simp [RepositoryLocation.create, RepositoryLocation.existsOnDisk,
      Fs.existsDir, h]
  · intro h
    have hc : (RepositoryLocation.init workingDirectory url).create fs =
        (true, Fs.mkdirParents fs
          (RepositoryLocation.init workingDirectory url).path) := by
      simp [RepositoryLocation.create, RepositoryLocation.existsOnDisk,
        Fs.existsDir, h]
    rw [hc]
    refine ⟨rfl, ?_, ?_⟩
    · exact mem_mkdirParents _ _ _
        (mem_ancestorsAndSelf_self _ (by simp [RepositoryLocation.init,
          repo_url_hash_path_builder, FsPath.child]))
    · intro q hq
      exact mem_mkdirParents _ _ _ hq

/-- Witness for C8 at concrete inputs: `create` on an existing location
returns `False` with the filesystem unchanged; on the empty filesystem it
returns `True`. -/
theorem create_idempotent_witness :
    ((RepositoryLocation.init "w" "u").create
        [(RepositoryLocation.init "w" "u").path] =
      (false, [(RepositoryLocation.init "w" "u").path])) ∧
    (((RepositoryLocation.init "w" "u").create []).1 = true) := by
  constructor
  · exact (create_idempotent "w" "u" _).1 (List.mem_cons_self _ _)
  · exact ((create_idempotent "w" "u" []).2 (List.not_mem_nil _)).1

/-- C10: empty enumeration output is not an error: a zero-exit listing with
empty stdout makes `branches()` and `tags()` return the empty list without
raising. -/
theorem empty_listing_not_error (args : List String) (pr : ProcResult)
    (hexit : pr.exitcode = 0) (hout : pr.stdout = "") :
    check_output args pr = Except.ok "" ∧
    Repository.branchesOut ("".toList) = Except.ok [] ∧
    Repository.tagsOut ("".toList) = Except.ok [] := by
  refine ⟨?_, rfl, rfl⟩
  rw [check_output, if_pos hexit, hout]

/-- Witness for C10: a concrete succeeding `ls-remote` with empty output. -/
theorem empty_listing_not_error_witness :
    check_output ["/usr/bin/git", "ls-remote", "--heads"] ⟨"", "", 0⟩ =
      Except.ok "" ∧
    Repository.branchesOut ("".toList) = Except.ok [] ∧
    Repository.tagsOut ("".toList) = Except.ok [] :=
  empty_listing_not_error _ _ rfl rfl

/-- C9 counterexample: for the destination `"a/"`, which already ends with the
separator, appending a further trailing separator changes the invoked
subcommand: the prefix argument becomes `a//` instead of `a/`, so the claim's
universal statement over every destination string fails. -/
theorem export_prefix_cex :
    Repository.export_argv
        ⟨RepositoryLocation.init "w" "u", "/usr/bin/git", false⟩
        ("a/".toList) ≠
      Repository.export_argv
        ⟨RepositoryLocation.init "w" "u", "/usr/bin/git", false⟩
        ("a/".toList ++ ['/']) := by
  decide

/-- C9 amended: for every nonempty destination that does not already end with
the path separator, `export` of the destination and of the destination with a
trailing separator appended invoke the identical subcommand; the prefix
argument always ends with the separator; and the subcommand invoked is
`checkout-index` (with `-a -f`), which materializes tracked files only. -/
theorem export_prefix_amended (repo : Repository) (destination : PyStr)
    (hne : destination ≠ []) (hsl : destination.getLast? ≠ some '/') :
    Repository.export_argv repo destination =
      Repository.export_argv repo (destination ++ ['/']) ∧
    os_path_join_empty destination = destination ++ ['/'] ∧
    (os_path_join_empty destination).getLast? = some '/' ∧
    (Repository.export_argv repo destination).get? 1 =
      some ("checkout-index".toList) := by
  have h1 : os_path_join_empty destination = destination ++ ['/'] := by
    rw [os_path_join_empty, if_neg (not_or.mpr ⟨hne, hsl⟩)]
  have h2 : os_path_join_empty (destination ++ ['/']) = destination ++ ['/'] := by
    rw [os_path_join_empty, if_pos (Or.inr (List.getLast?_concat _))]
  refine ⟨?_, h1, ?_, ?_⟩
  · unfold Repository.export_argv
    rw [h1, h2]
  · rw [h1]
    exact List.getLast?_concat _
  · unfold Repository.export_argv
    rfl

/-- Witness for C9 amended at the concrete destination `"a"`. -/
theorem export_prefix_amended_witness :
    Repository.export_argv
        ⟨RepositoryLocation.init "w" "u", "/usr/bin/git", false⟩
        ("a".toList) =
      Repository.export_argv
        ⟨RepositoryLocation.init "w" "u", "/usr/bin/git", false⟩
        ("a".toList ++ ['/']) :=
  (export_prefix_amended _ _ (by decide) (by decide)).1

/-- Reduction of `Repository.clone` on a failing subprocess: the create step
runs, and the error branch raises `RepositoryError(exc.stderr)` where the
`CalledProcessError`'s `stderr` field is `None`, after the conditional
rollback. -/
theorem clone_fail_shape (repo : Repository) (fs : Fs) (bare : Bool)
    (pr : ProcResult) (hexit : ¬ pr.exitcode = 0) :
    repo.clone fs bare pr =
      (if (repo.location.create fs).1 then
        match repo.location.remove (repo.location.create fs).2 with
        | (fs2, some e) =>
          ⟨fs2, (repo.location.create fs).1, some (PyExc.osError e)⟩
        | (fs2, none) =>
          ⟨fs2, (repo.location.create fs).1,
            some (PyExc.repositoryError none)⟩
      else
        ⟨(repo.location.create fs).2, (repo.location.create fs).1,
          some (PyExc.repositoryError none)⟩) := by
  unfold Repository.clone check_output
  dsimp only
  rw [if_neg hexit]

set_option maxRecDepth 100000 in
/-- C5: evaluation at a failing clone.  The subprocess exits 128 with the
diagnostic text `fatal: repository not found` on its (uncaptured) stderr
stream, yet the raised `RepositoryError` carries `None` — `check_output` is
invoked without capturing stderr, so `exc.stderr` is always `None` and the
diagnostic output is lost, contrary to the claim. -/
theorem clone_error_drops_stderr :
    ((⟨RepositoryLocation.init "w" "u", "/usr/bin/git", false⟩ :
        Repository).clone [] false
        ⟨"", "fatal: repository not found", 128⟩).raised =
      some (PyExc.repositoryError none) := by
  decide

/-- On every failing clone, the message carried by the raised
`RepositoryError` is `None` (never the nonempty stderr text of the failed
process): the general form of the stderr loss evaluated in
`clone_error_drops_stderr`. -/
theorem clone_error_message_always_none (repo : Repository) (fs : Fs)
    (bare : Bool) (pr : ProcResult) (hexit : ¬ pr.exitcode = 0) :
    (repo.clone fs bare pr).raised ≠
      some (PyExc.repositoryError (some pr.stderr)) ∨ pr.stderr = "" := by
  rw [clone_fail_shape repo fs bare pr hexit]
  by_cases hs : pr.stderr = ""
  · exact Or.inr hs
  · refine Or.inl ?_
    by_cases hc : (repo.location.create fs).1
    · rw [if_pos hc]
      match hrm : repo.location.remove (repo.location.create fs).2 with
      | (fs2, some e) => simp
      | (fs2, none) => simp
    · rw [if_neg hc]
      simp

set_option maxRecDepth 100000 in
/-- C6: evaluation of `remove` on a filesystem holding exactly one managed
repository.  `path.parent` is `root_path` itself (not the two-character shard
directory), and `root_path` has just been deleted by `rmtree`, so the `rmdir`
attempt always fails and is swallowed: `remove` completes without error and
the now-empty shard directory `w / md5(u)[0:2]` is left behind, contrary to
the claim that the shard parent is the directory whose removal is
attempted. -/
theorem remove_rmdir_misses_shard_dir :
    (RepositoryLocation.init "w" "u").remove
        (FsPath.ancestorsAndSelf (RepositoryLocation.init "w" "u").path) =
      ([["w"], ["w", (md5hex "u").take 2]], none) ∧
    FsPath.parent (RepositoryLocation.init "w" "u").path =
      (RepositoryLocation.init "w" "u").root_path ∧
    FsPath.parent (RepositoryLocation.init "w" "u").path ≠
      FsPath.parent (RepositoryLocation.init "w" "u").root_path := by
  refine ⟨by decide, rfl, by decide⟩

/-- The root path of a resolved location is among the ancestors of its clone
path (so `create` brings it into existence and `rmtree` finds it). -/
theorem init_root_mem_ancestors (workingDirectory url : String) :
    (RepositoryLocation.init workingDirectory url).root_path ∈
      FsPath.ancestorsAndSelf
        (RepositoryLocation.init workingDirectory url).path := by
  refine List.mem_map.mpr ⟨2, ?_, ?_⟩
  · refine List.mem_range.mpr ?_
    show 2 < 4
    omega
  · rfl

/-- The root path of a resolved location is a prefix of its clone path. -/
theorem init_root_prefix_path (workingDirectory url : String) :
    (RepositoryLocation.init workingDirectory url).root_path <+:
      (RepositoryLocation.init workingDirectory url).path :=
  ⟨[md5hex url], rfl⟩

/-- C1: conditional clone rollback: when the clone subprocess fails, a
location that did not exist beforehand does not exist afterwards, and a
location that already existed is left exactly as it was (only this attempt's
own directory creation is undone). -/
theorem clone_rollback (workingDirectory url binary : String) (bareF : Bool)
    (fs : Fs) (bare : Bool) (pr : ProcResult) (hexit : ¬ pr.exitcode = 0) :
    ((RepositoryLocation.init workingDirectory url).path ∉ fs →
      (RepositoryLocation.init workingDirectory url).path ∉
        ((⟨RepositoryLocation.init workingDirectory url, binary, bareF⟩ :
            Repository).clone fs bare pr).fs) ∧
    ((RepositoryLocation.init workingDirectory url).path ∈ fs →
      ((⟨RepositoryLocation.init workingDirectory url, binary, bareF⟩ :
          Repository).clone fs bare pr).fs = fs) := by
  rw [clone_fail_shape _ _ _ _ hexit]
  dsimp only
  constructor
  · intro hnot
    have hc : (RepositoryLocation.init workingDirectory url).create fs =
        (true, Fs.mkdirParents fs
          (RepositoryLocation.init workingDirectory url).path) := by
      simp [RepositoryLocation.create, RepositoryLocation.existsOnDisk,
        Fs.existsDir, hnot]
    rw [hc]
    have hrootD : (RepositoryLocation.init workingDirectory url).root_path ∈
        Fs.mkdirParents fs (RepositoryLocation.init workingDirectory url).path :=
      mem_mkdirParents _ _ _ (init_root_mem_ancestors _ _)
    have hrt : Fs.rmtree
        (Fs.mkdirParents fs (RepositoryLocation.init workingDirectory url).path)
        (RepositoryLocation.init workingDirectory url).root_path =
        ((Fs.mkdirParents fs
            (RepositoryLocation.init workingDirectory url).path).filter
          (fun q =>
            ¬ (RepositoryLocation.init workingDirectory url).root_path <+: q),
          none) := by
      unfold Fs.rmtree
      rw [if_pos hrootD]
    have hfilter_not : (RepositoryLocation.init workingDirectory url).root_path ∉
        (Fs.mkdirParents fs
            (RepositoryLocation.init workingDirectory url).path).filter
          (fun q =>
            ¬ (RepositoryLocation.init workingDirectory url).root_path <+: q) := by
      intro hmem
      have h2 := (List.mem_filter.mp hmem).2
      simp only [decide_eq_true_eq] at h2
      exact h2 (List.prefix_refl _)
    have hrm : (RepositoryLocation.init workingDirectory url).remove
        (Fs.mkdirParents fs
          (RepositoryLocation.init workingDirectory url).path) =
        ((Fs.mkdirParents fs
            (RepositoryLocation.init workingDirectory url).path).filter
          (fun q =>
            ¬ (RepositoryLocation.init workingDirectory url).root_path <+: q),
          none) := by
      unfold RepositoryLocation.remove
      dsimp only
      rw [hrt]
      have hparent : FsPath.parent
          (RepositoryLocation.init workingDirectory url).path =
          (RepositoryLocation.init workingDirectory url).root_path := rfl
      rw [hparent]
      unfold Fs.rmdir
      rw [if_neg hfilter_not]
    rw [hrm]
    intro hmem
    have h2 := (List.mem_filter.mp hmem).2
    simp only [decide_eq_true_eq] at h2
    exact h2 (init_root_prefix_path _ _)
  · intro hmem
    have hc : (RepositoryLocation.init workingDirectory url).create fs =
        (false, fs) := by
      simp [RepositoryLocation.create, RepositoryLocation.existsOnDisk,
        Fs.existsDir, hmem]
    rw [hc]
    rfl

/-- Witness for C1 at concrete inputs: a failed clone starting from the empty
filesystem leaves the location absent, and a failed clone at an existing
location leaves the filesystem unchanged. -/
theorem clone_rollback_witness :
    ((RepositoryLocation.init "w" "u").path ∉
      ((⟨RepositoryLocation.init "w" "u", "/usr/bin/git", false⟩ :
          Repository).clone [] false ⟨"", "boom", 1⟩).fs) ∧
    (((⟨RepositoryLocation.init "w" "u", "/usr/bin/git", false⟩ :
        Repository).clone [(RepositoryLocation.init "w" "u").path] false
        ⟨"", "boom", 1⟩).fs = [(RepositoryLocation.init "w" "u").path]) := by
  constructor
  · exact (clone_rollback "w" "u" "/usr/bin/git" false [] false _
      (by decide)).1 (List.not_mem_nil _)
  · exact (clone_rollback "w" "u" "/usr/bin/git" false _ false _
      (by decide)).2 (List.mem_cons_self _ _)

/-- C7 counterexample: with a runner whose checkout succeeds and whose pull
fails, `update_to` raises, but the propagated exception is the raw
`subprocess.CalledProcessError`, not the domain-level `RepositoryError` the
claim names (`update_to` performs no wrapping). -/
theorem update_to_error_not_domain_cex :
    (((⟨RepositoryLocation.init "w" "u", "/usr/bin/git", false⟩ :
        Repository).update_to "main"
        (fun _ s => (s + 1, ⟨"", "err", if s = 0 then 0 else 1⟩)) 0).2.map
      PyExc.isRepositoryError) = some false := by
  decide

/-- C7 amended: `update_to` runs checkout first and pull second; a failing
checkout propagates its `CalledProcessError` unmodified with the state the
tool left (pull never runs); a successful checkout followed by a failing pull
propagates the pull's `CalledProcessError` unmodified and leaves exactly the
state after checkout-then-failed-pull (no cleanup), visible to any subsequent
operation; when both succeed no exception is raised. -/
theorem update_to_order_and_no_cleanup {σ : Type} (repo : Repository)
    (reference : String) (run : List String → σ → σ × ProcResult) (st : σ) :
    ((run (repo.gitArgs "checkout" [reference]) st).2.exitcode ≠ 0 →
      repo.update_to reference run st =
        ((run (repo.gitArgs "checkout" [reference]) st).1,
          some (PyExc.calledProcessError
            ⟨(run (repo.gitArgs "checkout" [reference]) st).2.exitcode,
              repo.gitArgs "checkout" [reference],
              some (run (repo.gitArgs "checkout" [reference]) st).2.stdout,
              none⟩))) ∧
    ((run (repo.gitArgs "checkout" [reference]) st).2.exitcode = 0 →
      ((run (repo.gitArgs "pull" [])
          (run (repo.gitArgs "checkout" [reference]) st).1).2.exitcode ≠ 0 →
        repo.update_to reference run st =
          ((run (repo.gitArgs "pull" [])
              (run (repo.gitArgs "checkout" [reference]) st).1).1,
            some (PyExc.calledProcessError
              ⟨(run (repo.gitArgs "pull" [])
                  (run (repo.gitArgs "checkout" [reference]) st).1).2.exitcode,
                repo.gitArgs "pull" [],
                some (run (repo.gitArgs "pull" [])
                  (run (repo.gitArgs "checkout" [reference]) st).1).2.stdout,
                none⟩))) ∧
      ((run (repo.gitArgs "pull" [])
          (run (repo.gitArgs "checkout" [reference]) st).1).2.exitcode = 0 →
        repo.update_to reference run st =
          ((run (repo.gitArgs "pull" [])
              (run (repo.gitArgs "checkout" [reference]) st).1).1, none))) := by
  constructor
  · intro h1
    unfold Repository.update_to check_output
    dsimp only
    rw [if_neg h1]
  · intro h1
    constructor
    · intro h2
      unfold Repository.update_to check_output
      dsimp only
      rw [if_pos h1, if_neg h2]
    · intro h2
      unfold Repository.update_to check_output
      dsimp only
      rw [if_pos h1, if_pos h2]

/-- Witness for C7 amended with a concrete runner over state `Nat`: checkout
succeeds (state 0 to 1), pull fails (state 1 to 2), and `update_to` ends in
state 2 with the pull's `CalledProcessError`. -/
theorem update_to_order_and_no_cleanup_witness :
    ((⟨RepositoryLocation.init "w" "u", "/usr/bin/git", false⟩ :
        Repository).update_to "main"
        (fun _ s => (s + 1, ⟨"", "err", if s = 0 then 0 else 1⟩)) 0) =
      (2, some (PyExc.calledProcessError
        ⟨1, ["/usr/bin/git", "pull"], some "", none⟩)) :=
  ((update_to_order_and_no_cleanup
      (⟨RepositoryLocation.init "w" "u", "/usr/bin/git", false⟩ : Repository)
      "main" (fun _ s => (s + 1, ⟨"", "err", if s = 0 then 0 else 1⟩)) 0).2
    (by decide)).1 (by decide)

/-! Lemmas about the Python `split`/`strip` models, used for the
reference-enumeration claims. -/

/-- Unfolding equation of `pySplitGo` on the empty list. -/
theorem pySplitGo_nil (s : Char) (ss acc : List Char) :
    pySplitGo s ss [] acc = [acc.reverse] := by
  rw [pySplitGo.eq_def]

/-- Unfolding equation of `pySplitGo` on a cons cell. -/
theorem pySplitGo_cons (s : Char) (ss : List Char) (c : Char)
    (rest acc : List Char) :
    pySplitGo s ss (c :: rest) acc =
      if (s :: ss).isPrefixOf (c :: rest) then
        acc.reverse :: pySplitGo s ss ((c :: rest).drop (s :: ss).length) []
      else pySplitGo s ss rest (c :: acc) := by
  rw [pySplitGo.eq_def]

/-- A prefix is in particular an infix. -/
theorem infx_of_pfx {α : Type} {l₁ l₂ : List α} (h : l₁ <+: l₂) :
    l₁ <:+: l₂ := by
  obtain ⟨t, ht⟩ := h
  exact ⟨[], t, by simpa using ht⟩

/-- A singleton infix means membership. -/
theorem singleton_infx_mem {α : Type} {c : α} {l : List α}
    (h : [c] <:+: l) : c ∈ l := by
  obtain ⟨u, v, huv⟩ := h
  rw [← huv]
  simp

/-- When the separator occurs nowhere in the input, the scan accumulates the
whole input as a single chunk. -/
theorem pySplitGo_no_sep (s : Char) (ss : List Char) :
    ∀ (l acc : List Char), ¬ ((s :: ss) <:+: l) →
      pySplitGo s ss l acc = [acc.reverse ++ l] := by
  intro l
  induction l with
  | nil =>
    intro acc h
    rw [pySplitGo_nil]
    simp
  | cons c rest ih =>
    intro acc h
    rw [pySplitGo_cons,
      if_neg (fun hb => h (infx_of_pfx (List.isPrefixOf_iff_prefix.mp hb))),
      ih (c :: acc) (fun hinf => h (List.infix_cons hinf))]
    simp

/-- When the input is `p ++ sep ++ n` and the separator has no occurrence
before position `|p|` (no occurrence inside `p ++ sep.dropLast`), the scan
emits the chunk `p` and continues on `n` with a fresh accumulator. -/
theorem pySplitGo_found (s : Char) (ss n : List Char) :
    ∀ (p acc : List Char), ¬ ((s :: ss) <:+: (p ++ (s :: ss).dropLast)) →
      pySplitGo s ss (p ++ (s :: ss) ++ n) acc =
        (acc.reverse ++ p) :: pySplitGo s ss n [] := by
  intro p
  induction p with
  | nil =>
    intro acc h
    rw [show (([] : List Char) ++ (s :: ss) ++ n) = s :: (ss ++ n) by simp]
    rw [pySplitGo_cons,
      if_pos (List.isPrefixOf_iff_prefix.mpr ⟨n, by simp⟩)]
    simp only [List.length_cons, List.drop_succ_cons, List.drop_left]
    simp
  | cons c p' ih =>
    intro acc h
    rw [show ((c :: p') ++ (s :: ss) ++ n) = c :: (p' ++ (s :: ss) ++ n)
      by simp]
    rw [pySplitGo_cons, if_neg ?hneg]
    case hneg =>
      intro hb
      apply h
      have hpfx : (s :: ss) <+: (c :: (p' ++ (s :: ss) ++ n)) :=
        List.isPrefixOf_iff_prefix.mp hb
      have hmid : ((c :: p') ++ (s :: ss).dropLast) <+:
          (c :: (p' ++ (s :: ss) ++ n)) := by
        refine ⟨[(s :: ss).getLast (List.cons_ne_nil s ss)] ++ n, ?_⟩
        have hsplit : (s :: ss).dropLast ++
            [(s :: ss).getLast (List.cons_ne_nil s ss)] = s :: ss :=
          List.dropLast_append_getLast _
        calc (c :: p') ++ (s :: ss).dropLast ++
              ([(s :: ss).getLast (List.cons_ne_nil s ss)] ++ n)
            = (c :: p') ++ ((s :: ss).dropLast ++
              [(s :: ss).getLast (List.cons_ne_nil s ss)]) ++ n := by
              simp [List.append_assoc]
          _ = (c :: p') ++ (s :: ss) ++ n := by rw [hsplit]
          _ = c :: (p' ++ (s :: ss) ++ n) := by simp
      have hlen : (s :: ss).length ≤
          ((c :: p') ++ (s :: ss).dropLast).length := by
        simp [List.length_dropLast]
      exact infx_of_pfx
        (List.prefix_of_prefix_length_le hpfx hmid hlen)
    rw [ih (c :: acc) (fun hinf => h (by
      have h2 : (s :: ss) <:+: c :: (p' ++ (s :: ss).dropLast) :=
        List.infix_cons hinf
      simpa using h2))]
    simp

/-- Python `split` with a nonempty separator that occurs nowhere returns the
input as the only chunk. -/
theorem pySplit_no_sep (m l : PyStr) (hm : m ≠ []) (h : ¬ (m <:+: l)) :
    pySplit m l = [l] := by
  match m with
  | [] => exact absurd rfl hm
  | s :: ss =>
    show pySplitGo s ss l [] = [l]
    rw [pySplitGo_no_sep s ss l [] h]
    simp

/-- Python `split` at the first separator occurrence: splitting
`p ++ m ++ n` yields `p` followed by the chunks of `n`. -/
theorem pySplit_found (m p n : PyStr) (hm : m ≠ [])
    (hp : ¬ (m <:+: (p ++ m.dropLast))) :
    pySplit m (p ++ m ++ n) = p :: pySplit m n := by
  match m with
  | [] => exact absurd rfl hm
  | s :: ss =>
    show pySplitGo s ss (p ++ (s :: ss) ++ n) [] = p :: pySplitGo s ss n []
    rw [pySplitGo_found s ss n p [] hp]
    simp

/-- Splitting a well-formed marker line `p ++ m ++ n` (no marker occurrence
before position `|p|`, none in `n`) gives exactly the two chunks `p`, `n`. -/
theorem pySplit_marker_line (m p n : PyStr) (hm : m ≠ [])
    (hp : ¬ (m <:+: (p ++ m.dropLast))) (hn : ¬ (m <:+: n)) :
    pySplit m (p ++ m ++ n) = [p, n] := by
  rw [pySplit_found m p n hm hp, pySplit_no_sep m n hm hn]

/-- Raw multi-line listing output assembled from individual lines: the input
shape over which the reduction claims quantify. -/
def joinWith (sep : PyStr) : List PyStr → PyStr
  | [] => []
  | [l] => l
  | l :: l2 :: ls => l ++ sep ++ joinWith sep (l2 :: ls)

/-- A head element of a list is a member. -/
theorem mem_of_head?_eq {α : Type} {l : List α} {a : α}
    (h : l.head? = some a) : a ∈ l := by
  cases l with
  | nil => simp at h
  | cons x t =>
    simp at h
    rw [h]
    exact List.mem_cons_self _ _

/-- A last element of a list is a member. -/
theorem mem_of_getLast?_eq {α : Type} {l : List α} {a : α}
    (h : l.getLast? = some a) : a ∈ l := by
  have h2 : l.reverse.head? = some a := by rwa [List.head?_reverse]
  have h3 := mem_of_head?_eq h2
  simpa using h3

/-- `dropWhile` is the identity when the head does not satisfy the
predicate. -/
theorem dropWhile_eq_self_of_head (p : Char → Bool) (l : List Char)
    (h : ∀ c, l.head? = some c → p c = false) : l.dropWhile p = l := by
  cases l with
  | nil => rfl
  | cons a t =>
    rw [List.dropWhile_cons]
    simp [h a rfl]

/-- Python `strip()` is the identity when neither end is whitespace. -/
theorem pyStrip_eq_self (l : PyStr)
    (h1 : ∀ c, l.head? = some c → pyWs c = false)
    (h2 : ∀ c, l.getLast? = some c → pyWs c = false) : pyStrip l = l := by
  unfold pyStrip
  rw [dropWhile_eq_self_of_head _ l h1]
  rw [dropWhile_eq_self_of_head _ l.reverse
    (fun c hc => h2 c (by rwa [List.head?_reverse] at hc))]
  exact List.reverse_reverse l

/-- A join of nonempty lines is nonempty. -/
theorem joinWith_ne_nil (sep : PyStr) :
    ∀ ls : List PyStr, ls ≠ [] → (∀ l ∈ ls, l ≠ []) →
      joinWith sep ls ≠ [] := by
  intro ls hne hall
  match ls with
  | [] => exact absurd rfl hne
  | [l] =>
    show l ≠ []
    exact hall l (List.mem_cons_self _ _)
  | l :: l2 :: r =>
    show l ++ sep ++ joinWith sep (l2 :: r) ≠ []
    have hl := hall l (List.mem_cons_self _ _)
    simp [hl]

/-- The last character of a newline join of whitespace-free nonempty lines is
not whitespace. -/
theorem joinWith_getLast?_nonws :
    ∀ (ls : List PyStr), (∀ l ∈ ls, l ≠ [] ∧
        ∀ c, l.getLast? = some c → pyWs c = false) →
      ∀ c, (joinWith ['\n'] ls).getLast? = some c → pyWs c = false := by
  intro ls
  induction ls with
  | nil =>
    intro _ c hc
    simp [joinWith] at hc
  | cons x xs ih =>
    intro h c hc
    cases xs with
    | nil => exact (h x (List.mem_cons_self _ _)).2 c hc
    | cons y r =>
      have hne : joinWith ['\n'] (y :: r) ≠ [] :=
        joinWith_ne_nil _ _ (by simp)
          (fun l hl => (h l (List.mem_cons_of_mem _ hl)).1)
      have hjoin : joinWith ['\n'] (x :: y :: r) =
          (x ++ ['\n']) ++ joinWith ['\n'] (y :: r) := by
        show x ++ ['\n'] ++ joinWith ['\n'] (y :: r) = _
        simp [List.append_assoc]
      rw [hjoin, List.getLast?_append_of_ne_nil _ hne] at hc
      exact ih (fun l hl => h l (List.mem_cons_of_mem _ hl)) c hc

/-- The first character of a newline join is the first line's first
character. -/
theorem joinWith_head? (sep : PyStr) (x : PyStr) (xs : List PyStr)
    (hx : x ≠ []) : (joinWith sep (x :: xs)).head? = x.head? := by
  cases xs with
  | nil => rfl
  | cons y r =>
    show ((x ++ sep) ++ joinWith sep (y :: r)).head? = x.head?
    cases x with
    | nil => exact absurd rfl hx
    | cons a t => rfl

/-- Whitespace-free strings contain no newline. -/
theorem no_ws_no_newline {l : PyStr} (h : ∀ c ∈ l, pyWs c = false) :
    ('\n' : Char) ∉ l := fun hmem => by simpa [pyWs] using h _ hmem

/-- Splitting a newline join of newline-free lines recovers the lines. -/
theorem pySplit_newline_join :
    ∀ (ls : List PyStr), ls ≠ [] → (∀ l ∈ ls, ('\n' : Char) ∉ l) →
      pySplit ['\n'] (joinWith ['\n'] ls) = ls := by
  intro ls
  induction ls with
  | nil => intro h _; exact absurd rfl h
  | cons x xs ih =>
    intro _ hfree
    cases xs with
    | nil =>
      show pySplit ['\n'] (joinWith ['\n'] [x]) = [x]
      exact pySplit_no_sep _ _ (by simp)
        (fun hinf => hfree x (List.mem_cons_self _ _) (singleton_infx_mem hinf))
    | cons y r =>
      have hx : ¬ ((['\n'] : PyStr) <:+: (x ++ (['\n'] : PyStr).dropLast)) := by
        rw [show ((['\n'] : PyStr).dropLast) = [] from rfl, List.append_nil]
        exact fun hinf =>
          hfree x (List.mem_cons_self _ _) (singleton_infx_mem hinf)
      have hjoin : joinWith ['\n'] (x :: y :: r) =
          x ++ ['\n'] ++ joinWith ['\n'] (y :: r) := rfl
      rw [hjoin, pySplit_found ['\n'] x _ (by simp) hx,
        ih (by simp) (fun l hl => hfree l (List.mem_cons_of_mem _ hl))]

/-- Mapping the index-1-of-split reduction over well-formed marker lines
yields the names, in input order. -/
theorem mapM_marker_lines (m : PyStr) (hm : m ≠ [])
    (f : PyStr → Option PyStr) (hf : ∀ t, f t = (pySplit m t).get? 1) :
    ∀ lines : List (PyStr × PyStr),
      (∀ pl ∈ lines, ¬ (m <:+: (pl.1 ++ m.dropLast)) ∧ ¬ (m <:+: pl.2)) →
      (lines.map (fun pl => pl.1 ++ m ++ pl.2)).mapM f =
        some (lines.map (fun pl => pl.2)) := by
  intro lines
  induction lines with
  | nil => intro _; rfl
  | cons pl rest ih =>
    intro h
    rw [List.map_cons, List.map_cons, List.mapM_cons, hf]
    rw [pySplit_marker_line m pl.1 pl.2 hm (h pl (List.mem_cons_self _ _)).1
      (h pl (List.mem_cons_self _ _)).2]
    rw [ih (fun q hq => h q (List.mem_cons_of_mem _ hq))]
    rfl

/-- Core parsing fact: the raw output assembled from well-formed marker lines
is nonempty, survives `strip` unchanged, splits back into the lines, and the
per-line reduction returns the names in input order. -/
theorem refs_output_parses (m : PyStr) (hm : m ≠ [])
    (hmws : ∀ c ∈ m, pyWs c = false)
    (f : PyStr → Option PyStr) (hf : ∀ t, f t = (pySplit m t).get? 1)
    (lines : List (PyStr × PyStr)) (hne : lines ≠ [])
    (hgood : ∀ pl ∈ lines,
      ¬ (m <:+: (pl.1 ++ m.dropLast)) ∧ ¬ (m <:+: pl.2) ∧
      (∀ c ∈ pl.1, pyWs c = false) ∧ (∀ c ∈ pl.2, pyWs c = false)) :
    joinWith ['\n'] (lines.map (fun pl => pl.1 ++ m ++ pl.2)) ≠ [] ∧
    (pySplit ['\n'] (pyStrip (joinWith ['\n']
        (lines.map (fun pl => pl.1 ++ m ++ pl.2))))).mapM f =
      some (lines.map (fun pl => pl.2)) := by
  have hlinene : ∀ l ∈ lines.map (fun pl => pl.1 ++ m ++ pl.2), l ≠ [] := by
    intro l hl
    obtain ⟨pl, hpl, rfl⟩ := List.mem_map.mp hl
    simp [hm]
  have hlinews : ∀ l ∈ lines.map (fun pl => pl.1 ++ m ++ pl.2),
      ∀ c ∈ l, pyWs c = false := by
    intro l hl c hc
    obtain ⟨pl, hpl, rfl⟩ := List.mem_map.mp hl
    rcases List.mem_append.mp hc with hc1 | hc2
    · rcases List.mem_append.mp hc1 with hc3 | hc4
      · exact (hgood pl hpl).2.2.1 c hc3
      · exact hmws c hc4
    · exact (hgood pl hpl).2.2.2 c hc2
  have hmapne : lines.map (fun pl => pl.1 ++ m ++ pl.2) ≠ [] := by
    simpa using hne
  have hjoinne := joinWith_ne_nil ['\n'] _ hmapne hlinene
  refine ⟨hjoinne, ?_⟩
  have hstrip : pyStrip (joinWith ['\n']
      (lines.map (fun pl => pl.1 ++ m ++ pl.2))) =
      joinWith ['\n'] (lines.map (fun pl => pl.1 ++ m ++ pl.2)) := by
    obtain ⟨x, xs, hxxs⟩ : ∃ x xs,
        lines.map (fun pl => pl.1 ++ m ++ pl.2) = x :: xs := by
      cases hmap : lines.map (fun pl => pl.1 ++ m ++ pl.2) with
      | nil => exact absurd hmap hmapne
      | cons x xs => exact ⟨x, xs, rfl⟩
    refine pyStrip_eq_self _ ?_ ?_
    · intro c hc
      rw [hxxs, joinWith_head? _ _ _
        (hlinene x (hxxs ▸ List.mem_cons_self _ _))] at hc
      exact hlinews x (hxxs ▸ List.mem_cons_self _ _) c (mem_of_head?_eq hc)
    · intro c hc
      exact joinWith_getLast?_nonws _
        (fun l hl => ⟨hlinene l hl,
          fun c' hc' => hlinews l hl c' (mem_of_getLast?_eq hc')⟩) c hc
  rw [hstrip, pySplit_newline_join _ hmapne
    (fun l hl => no_ws_no_newline (hlinews l hl))]
  exact mapM_marker_lines m hm f hf lines
    (fun pl hpl => ⟨(hgood pl hpl).1, (hgood pl hpl).2.1⟩)

/-- C4: reference reduction: over any raw listing assembled from lines of the
form `pre ++ refs/heads/ ++ name` (the marker occurring nowhere else in the
line and the line free of whitespace characters), `branches()` reduces each
line to its name, in input order, and `tags()` does the same with the
`refs/tags/` marker; a nonempty line that does not contain the marker makes
the respective operation fail with the `IndexError` of the missing split
index. -/
theorem reference_reduction :
    (∀ lines : List (PyStr × PyStr), lines ≠ [] →
      (∀ pl ∈ lines,
        ¬ (("refs/heads/".toList : PyStr) <:+:
            (pl.1 ++ ("refs/heads/".toList : PyStr).dropLast)) ∧
        ¬ (("refs/heads/".toList : PyStr) <:+: pl.2) ∧
        (∀ c ∈ pl.1, pyWs c = false) ∧ (∀ c ∈ pl.2, pyWs c = false)) →
      Repository.branchesOut (joinWith ['\n']
          (lines.map (fun pl => pl.1 ++ "refs/heads/".toList ++ pl.2))) =
        Except.ok (lines.map (fun pl => pl.2))) ∧
    (∀ lines : List (PyStr × PyStr), lines ≠ [] →
      (∀ pl ∈ lines,
        ¬ (("refs/tags/".toList : PyStr) <:+:
            (pl.1 ++ ("refs/tags/".toList : PyStr).dropLast)) ∧
        ¬ (("refs/tags/".toList : PyStr) <:+: pl.2) ∧
        (∀ c ∈ pl.1, pyWs c = false) ∧ (∀ c ∈ pl.2, pyWs c = false)) →
      Repository.tagsOut (joinWith ['\n']
          (lines.map (fun pl => pl.1 ++ "refs/tags/".toList ++ pl.2))) =
        Except.ok (lines.map (fun pl => pl.2))) ∧
    (∀ line : PyStr, line ≠ [] → (∀ c ∈ line, pyWs c = false) →
      ¬ (("refs/heads/".toList : PyStr) <:+: line) →
      Repository.branchesOut line = Except.error PyExc.indexError) ∧
    (∀ line : PyStr, line ≠ [] → (∀ c ∈ line, pyWs c = false) →
      ¬ (("refs/tags/".toList : PyStr) <:+: line) →
      Repository.tagsOut line = Except.error PyExc.indexError) := by
  refine ⟨?_, ?_, ?_, ?_⟩
  · intro lines hne hgood
    have hcore := refs_output_parses ("refs/heads/".toList) (by decide)
      (by decide) split_branch_name (fun t => rfl) lines hne hgood
    unfold Repository.branchesOut
    rw [if_neg hcore.1, hcore.2]
  · intro lines hne hgood
    have hcore := refs_output_parses ("refs/tags/".toList) (by decide)
      (by decide) (fun t => (pySplit ("refs/tags/".toList) t).get? 1)
      (fun t => rfl) lines hne hgood
    unfold Repository.tagsOut
    rw [if_neg hcore.1, hcore.2]
  · intro line h0 hws hmarker
    have hstrip : pyStrip line = line :=
      pyStrip_eq_self line (fun c hc => hws c (mem_of_head?_eq hc))
        (fun c hc => hws c (mem_of_getLast?_eq hc))
    have hnl : pySplit ['\n'] line = [line] :=
      pySplit_no_sep _ _ (by simp)
        (fun hinf => by simpa [pyWs] using hws _ (singleton_infx_mem hinf))
    have hsb : split_branch_name line = none := by
      unfold split_branch_name
      rw [pySplit_no_sep _ _ (by decide) hmarker]
      rfl
    have hmm : ([line] : List PyStr).mapM split_branch_name = none := by
      rw [List.mapM_cons, hsb]
      rfl
    unfold Repository.branchesOut
    rw [if_neg h0, hstrip, hnl, hmm]
  · intro line h0 hws hmarker
    have hstrip : pyStrip line = line :=
      pyStrip_eq_self line (fun c hc => hws c (mem_of_head?_eq hc))
        (fun c hc => hws c (mem_of_getLast?_eq hc))
    have hnl : pySplit ['\n'] line = [line] :=
      pySplit_no_sep _ _ (by simp)
        (fun hinf => by simpa [pyWs] using hws _ (singleton_infx_mem hinf))
    have hsb : (pySplit ("refs/tags/".toList) line).get? 1 = none := by
      rw [pySplit_no_sep _ _ (by decide) hmarker]
      rfl
    have hmm : ([line] : List PyStr).mapM
        (fun t => (pySplit ("refs/tags/".toList) t).get? 1) = none := by
      rw [List.mapM_cons, hsb]
      rfl
    unfold Repository.tagsOut
    rw [if_neg h0, hstrip, hnl, hmm]

/-- Witness for C4 at the spec's own exemplars: raw lines `refs/heads/main`
and `refs/heads/dev` reduce to `["main", "dev"]`, `refs/tags/v1.0` reduces to
`["v1.0"]`, and a marker-free line fails with the parsing `IndexError`. -/
theorem reference_reduction_witness :
    Repository.branchesOut ("refs/heads/main\nrefs/heads/dev".toList) =
      Except.ok ["main".toList, "dev".toList] ∧
    Repository.tagsOut ("refs/tags/v1.0".toList) =
      Except.ok ["v1.0".toList] ∧
    Repository.branchesOut ("oops".toList) = Except.error PyExc.indexError := by
  refine ⟨?_, ?_, ?_⟩
  · exact reference_reduction.1 [([], "main".toList), ([], "dev".toList)]
      (by decide) (by decide)
  · exact reference_reduction.2.1 [([], "v1.0".toList)] (by decide) (by decide)
  · exact reference_reduction.2.2.1 ("oops".toList) (by decide) (by decide)
      (by decide)
